import Mathlib

/-!
Shallow embedding of the PCR (Platform Configuration Register) composite-digest
core of the go-tpm `tpm` package (`pcrs.go`), together with theorems checking
the natural-language specification against it.

Machine bytes and words are modelled as `Nat` with explicit `% 256` / `% 2^32`
where Go's fixed-width arithmetic truncates.  Fallible Go functions returning
`(T, error)` are modelled as `Except String T`.
-/

namespace GoTpm

/-! ## SHA-1 (crypto/sha1, Go standard library)

`createPCRComposite` calls `sha1.Sum` from Go's standard library.  The
algorithm below is the standard SHA-1 (FIPS 180) over a list of byte values,
all arithmetic on 32-bit words done in `Nat` with explicit reduction
`% 4294967296`. -/

/-- Reduce to a 32-bit word. -/
def w32 (n : Nat) : Nat := n % 4294967296

/-- Rotate a 32-bit word left by `s` (for `x < 2^32`, `0 < s < 32`). -/
def rotl32 (x s : Nat) : Nat := ((x <<< s) % 4294967296) ||| (x >>> (32 - s))

/-- Big-endian 2-byte encoding of a 16-bit value. -/
def u16be (n : Nat) : List Nat := [(n >>> 8) % 256, n % 256]

/-- Big-endian 4-byte encoding of a 32-bit value. -/
def u32be (n : Nat) : List Nat :=
  [(n >>> 24) % 256, (n >>> 16) % 256, (n >>> 8) % 256, n % 256]

/-- Big-endian 8-byte encoding of a 64-bit value. -/
def u64be (n : Nat) : List Nat :=
  [(n >>> 56) % 256, (n >>> 48) % 256, (n >>> 40) % 256, (n >>> 32) % 256,
   (n >>> 24) % 256, (n >>> 16) % 256, (n >>> 8) % 256, n % 256]

/-- SHA-1 round function `f_t`. -/
def sha1F (t b c d : Nat) : Nat :=
  if t < 20 then (b &&& c) ||| ((b ^^^ 4294967295) &&& d)
  else if t < 40 then b ^^^ c ^^^ d
  else if t < 60 then (b &&& c) ||| (b &&& d) ||| (c &&& d)
  else b ^^^ c ^^^ d

/-- SHA-1 round constant `K_t`. -/
def sha1K (t : Nat) : Nat :=
  if t < 20 then 1518500249
  else if t < 40 then 1859775393
  else if t < 60 then 2400959708
  else 3395469782

/-- Group a byte list into big-endian 32-bit words. -/
def toWordsBE : List Nat → List Nat
  | b0 :: b1 :: b2 :: b3 :: rest =>
      (b0 * 16777216 + b1 * 65536 + b2 * 256 + b3) :: toWordsBE rest
  | _ => []

/-- Extend the 16-word message schedule by `k` further words. -/
def sha1Extend (w : Array Nat) : Nat → Array Nat
  | 0 => w
  | k + 1 =>
      let m := rotl32 ((w.getD (w.size - 3) 0) ^^^ (w.getD (w.size - 8) 0) ^^^
                       (w.getD (w.size - 14) 0) ^^^ (w.getD (w.size - 16) 0)) 1
      sha1Extend (w.push m) k

/-- Run `k` SHA-1 rounds starting at round index `i` on state `(a,b,c,d,e)`. -/
def sha1Rounds (w : Array Nat) : Nat → Nat → Nat × Nat × Nat × Nat × Nat →
    Nat × Nat × Nat × Nat × Nat
  | _, 0, st => st
  | i, k + 1, (a, b, c, d, e) =>
      let tmp := w32 (rotl32 a 5 + sha1F i b c d + e + sha1K i + w.getD i 0)
      sha1Rounds w (i + 1) k (tmp, a, rotl32 b 30, c, d)

/-- Compress one 64-byte block into the running hash state. -/
def sha1Block (h : Nat × Nat × Nat × Nat × Nat) (block : List Nat) :
    Nat × Nat × Nat × Nat × Nat :=
  let w := sha1Extend (toWordsBE block).toArray 64
  match h with
  | (h0, h1, h2, h3, h4) =>
      match sha1Rounds w 0 80 (h0, h1, h2, h3, h4) with
      | (a, b, c, d, e) =>
          (w32 (h0 + a), w32 (h1 + b), w32 (h2 + c), w32 (h3 + d), w32 (h4 + e))

/-- Split a byte list into 64-byte chunks. -/
def chunks64 : List Nat → List (List Nat)
  | [] => []
  | x :: xs => ((x :: xs).take 64) :: chunks64 ((x :: xs).drop 64)
termination_by l => l.length
decreasing_by simp [List.length_drop]; omega

/-- SHA-1 padding: append `0x80`, zeros to 56 mod 64, then the 64-bit
big-endian bit length. -/
def sha1Pad (msg : List Nat) : List Nat :=
  let len := msg.length
  let z := (120 - ((len + 1) % 64)) % 64
  msg ++ [128] ++ List.replicate z 0 ++ u64be (8 * len)

/-- SHA-1 of a byte list, as the 20-byte digest. -/
def sha1 (msg : List Nat) : List Nat :=
  match (chunks64 (sha1Pad msg)).foldl sha1Block
      (1732584193, 4023233417, 2562383102, 271733878, 3285377520) with
  | (h0, h1, h2, h3, h4) => u32be h0 ++ u32be h1 ++ u32be h2 ++ u32be h3 ++ u32be h4

/-! ## PCR mask and selection (pcrs.go) -/

/-- Each PCR has a fixed size of 20 bytes (`const PCRSize int = 20`). -/
def PCRSize : Nat := 20

/-- A `pcrMask` is `[3]byte`: a set of PCR choices, one bit per PCR out of the
24 possible PCR values. -/
structure pcrMask where
  b0 : Nat
  b1 : Nat
  b2 : Nat
deriving Repr, DecidableEq

/-- The all-zero mask (Go's zero value for `[3]byte`). -/
def pcrMask.zero : pcrMask := ⟨0, 0, 0⟩

/-- Array access `pm[k]` on the 3-byte mask. -/
def pcrMask.byte (pm : pcrMask) (k : Nat) : Nat :=
  if k = 0 then pm.b0 else if k = 1 then pm.b1 else pm.b2

/-- Bit `j` of the mask: bit `j % 8` of byte `j / 8`. -/
def pcrMask.bit (pm : pcrMask) (j : Nat) : Bool :=
  (pm.byte (j / 8)).testBit (j % 8)

/-- `setPCR` sets a PCR value as selected in a given mask:
`if i >= 24 || i < 0 { error }; pm[i/8] |= 1 << uint(i%8)`. -/
def pcrMask.setPCR (pm : pcrMask) (i : Int) : Except String pcrMask :=
  if 24 ≤ i ∨ i < 0 then .error ("can't set PCR " ++ toString i)
  else
    let k := i.toNat / 8
    let bit := 1 <<< (i.toNat % 8)
    if k = 0 then .ok ⟨pm.b0 ||| bit, pm.b1, pm.b2⟩
    else if k = 1 then .ok ⟨pm.b0, pm.b1 ||| bit, pm.b2⟩
    else .ok ⟨pm.b0, pm.b1, pm.b2 ||| bit⟩

/-- `isPCRSet` checks whether a given PCR is included in this mask:
`n := byte(1 << uint(i%8)); return pm[i/8]&n == n`. -/
def pcrMask.isPCRSet (pm : pcrMask) (i : Int) : Except String Bool :=
  if 24 ≤ i ∨ i < 0 then .error ("can't check PCR " ++ toString i)
  else
    let n := (1 <<< (i.toNat % 8)) % 256
    .ok (decide (pm.byte (i.toNat / 8) &&& n = n))

/-- A `pcrSelection` is the first element in the input of a PCR composition:
`{ Size uint16; Mask pcrMask }`. -/
structure pcrSelection where
  Size : Nat
  Mask : pcrMask
deriving Repr, DecidableEq

/-- The loop body of `newPCRSelection`: set each index in order, stopping at
the first error. -/
def setAllPCRs (pm : pcrMask) : List Int → Except String pcrMask
  | [] => .ok pm
  | v :: rest =>
      match pm.setPCR v with
      | .error e => .error e
      | .ok pm2 => setAllPCRs pm2 rest

/-- `newPCRSelection` creates a new pcrSelection for the given set of PCRs:
starts from `&pcrSelection{Size: 3}` (zero mask) and calls `setPCR` for each
index, returning `nil` with the error on the first failure. -/
def newPCRSelection (pcrVals : List Int) : Except String pcrSelection :=
  match setAllPCRs pcrMask.zero pcrVals with
  | .error e => .error e
  | .ok m => .ok ⟨3, m⟩

/-! ## Composite digest (pcrs.go + the external packer) -/

/-- Modelled from the spec: the generic structure packer `pack` is repository
code that is not under src/ (only its caller `createPCRComposite` is).  Spec
§4.3 and §6 fix the exact byte sequence it must produce for the
`{pcrSelection, bytes}` pair used here: 2-byte big-endian selection size,
the 3 raw mask bytes, 4-byte big-endian length of the value blob, then the
raw value bytes, with no padding.  On this shape it cannot fail. -/
def packSelectionAndBytes (sel : pcrSelection) (pcrs : List Nat) : List Nat :=
  u16be sel.Size ++ [sel.Mask.b0, sel.Mask.b1, sel.Mask.b2] ++
    u32be pcrs.length ++ pcrs

/-- `createPCRComposite` composes a set of PCRs by prepending a pcrSelection
and a length, then computing the SHA1 hash and returning its output.
Fails when `len(pcrs) % PCRSize != 0`. -/
def createPCRComposite (mask : pcrMask) (pcrs : List Nat) :
    Except String (List Nat) :=
  if pcrs.length % PCRSize ≠ 0 then
    .error ("pcrs must be a multiple of " ++ toString PCRSize)
  else
    .ok (sha1 (packSelectionAndBytes ⟨3, mask⟩ pcrs))

/-! ## PCR info records (pcrs.go) -/

/-- Modelled from the spec: `digest` is a 20-byte array type declared outside
src/ (spec §3: "Digest: a 20-byte SHA-1 output").  Go's `copy` into the zeroed
20-byte array keeps the first `min 20 d.length` source bytes and leaves the
remaining bytes zero. -/
def copyToDigest (d : List Nat) : List Nat :=
  d.take 20 ++ List.replicate (20 - d.length) 0

/-- Modelled from the spec: the tag-constant registry is outside src/; only
the 16-bit wire tag identifying a long-form PCR info record is required
(spec §6). -/
def tagPCRInfoLong : Nat := 6

/-- `pcrInfoLong` stores detailed information about PCRs. -/
structure pcrInfoLong where
  Tag : Nat
  LocAtCreation : Nat
  LocAtRelease : Nat
  PCRsAtCreation : pcrSelection
  PCRsAtRelease : pcrSelection
  DigestAtCreation : List Nat
  DigestAtRelease : List Nat
deriving Repr, DecidableEq

/-- `createPCRInfoLong` creates a pcrInfoLong structure from a mask and some
PCR values that match this mask, along with a TPM locality.
`locVal := byte(1 << loc)` is byte arithmetic: `(1 <<< loc) % 256`. -/
def createPCRInfoLong (loc : Nat) (mask : pcrMask) (pcrVals : List Nat) :
    Except String pcrInfoLong :=
  match createPCRComposite mask pcrVals with
  | .error e => .error e
  | .ok d =>
      let locVal := (1 <<< loc) % 256
      .ok { Tag := tagPCRInfoLong
            LocAtCreation := locVal
            LocAtRelease := locVal
            PCRsAtCreation := ⟨3, mask⟩
            PCRsAtRelease := ⟨3, mask⟩
            DigestAtCreation := copyToDigest d
            DigestAtRelease := copyToDigest d }

/-- `newPCRInfoLong` creates and returns a pcrInfoLong structure for the given
PCR values.  `FetchPCRValues` is the external PCR-value source (spec §6), an
opaque blocking call whose code is outside src/; it is taken here as a
parameter `fetch`, so the theorems hold for every behaviour of the source. -/
def newPCRInfoLong (fetch : List Int → Except String (List Nat)) (loc : Nat)
    (pcrNums : List Int) : Except String pcrInfoLong :=
  match setAllPCRs pcrMask.zero pcrNums with
  | .error e => .error e
  | .ok mask =>
      match fetch pcrNums with
      | .error e => .error e
      | .ok pcrVals => createPCRInfoLong loc mask pcrVals

/-! ## Helper lemmas -/

/-- The SHA-1 digest always has exactly 20 bytes. -/
theorem sha1_length (msg : List Nat) : (sha1 msg).length = 20 := by
  unfold sha1
  rcases hm : (chunks64 (sha1Pad msg)).foldl sha1Block
      (1732584193, 4023233417, 2562383102, 271733878, 3285377520) with
    ⟨h0, h1, h2, h3, h4⟩
  simp [u32be]

/-- Copying a 20-byte digest into the zeroed 20-byte array reproduces it. -/
theorem copyToDigest_of_length (d : List Nat) (h : d.length = 20) :
    copyToDigest d = d := by
  unfold copyToDigest
  rw [List.take_of_length_le (by omega), h]
  simp

/-- Bit `j` of `b ||| (1 <<< k)` in terms of bit `j` of `b`. -/
theorem testBit_or_shiftLeft (b k j : Nat) :
    (b ||| (1 <<< k)).testBit j = (b.testBit j || decide (j = k)) := by
  rw [Nat.testBit_or, Nat.one_shiftLeft, Nat.testBit_two_pow]
  by_cases h : j = k
  · subst h; simp
  · have h2 : ¬(k = j) := fun hh => h hh.symm
    simp [h, h2]

/-- `b &&& 2^k = 2^k` tests exactly bit `k` of `b`. -/
theorem and_two_pow_eq_iff (b k : Nat) :
    b &&& 2 ^ k = 2 ^ k ↔ b.testBit k = true := by
  constructor
  · intro h
    have := congrArg (fun x => x.testBit k) h
    simpa [Nat.testBit_and, Nat.testBit_two_pow] using this
  · intro h
    apply Nat.eq_of_testBit_eq
    intro i
    rw [Nat.testBit_and, Nat.testBit_two_pow]
    by_cases hik : k = i
    · subst hik; simp [h]
    · simp [hik]

/-- `decide` form of `and_two_pow_eq_iff`. -/
theorem decide_and_two_pow (b k : Nat) :
    decide (b &&& 2 ^ k = 2 ^ k) = b.testBit k := by
  rcases hb : b.testBit k
  · simp [and_two_pow_eq_iff, hb]
  · simp [and_two_pow_eq_iff, hb]

/-! ## Theorems for the claims -/

/-- C2: for every mask and every byte string `pcrValues` whose length is a
multiple of 20, `createPCRComposite` succeeds and returns the SHA-1 of the
buffer `u16be 3 ‖ mask bytes ‖ u32be (len pcrValues) ‖ pcrValues`, with no
padding, and the returned digest has 20 bytes. -/
theorem createPCRComposite_ok_spec (mask : pcrMask) (pcrValues : List Nat)
    (h : pcrValues.length % 20 = 0) :
    createPCRComposite mask pcrValues =
      .ok (sha1 (u16be 3 ++ [mask.b0, mask.b1, mask.b2] ++
        u32be pcrValues.length ++ pcrValues)) ∧
    ∀ d, createPCRComposite mask pcrValues = .ok d → d.length = 20 := by
  have hbuf : createPCRComposite mask pcrValues =
      .ok (sha1 (u16be 3 ++ [mask.b0, mask.b1, mask.b2] ++
        u32be pcrValues.length ++ pcrValues)) := by
    unfold createPCRComposite packSelectionAndBytes PCRSize
    rw [if_neg (by omega)]
  refine ⟨hbuf, fun d hd => ?_⟩
  rw [hbuf] at hd
  injection hd with hd
  rw [← hd]
  exact sha1_length _

/-- C5: `createPCRComposite` fails iff the value blob length is not a
multiple of 20, and then with exactly the "multiple of 20" error and no
digest. -/
theorem createPCRComposite_error_iff (mask : pcrMask) (pcrValues : List Nat) :
    ((∃ e, createPCRComposite mask pcrValues = .error e) ↔
      pcrValues.length % 20 ≠ 0) ∧
    (pcrValues.length % 20 ≠ 0 →
      createPCRComposite mask pcrValues =
        .error ("pcrs must be a multiple of 20")) := by
  unfold createPCRComposite PCRSize
  by_cases h : pcrValues.length % 20 = 0
  · rw [if_neg (by omega)]
    simp [h]
  · rw [if_pos (by omega)]
    refine ⟨by simp [h], fun _ => ?_⟩
    rfl

/-- C6: whenever the composite digest succeeds with digest `d`,
`createPCRInfoLong` succeeds and returns the record with both locations
`byte(1 << loc)`, both selections `{3, mask}` and both digest fields `d`;
when the digest step fails, the same error is returned unchanged. -/
theorem createPCRInfoLong_spec (loc : Nat) (mask : pcrMask)
    (pcrVals : List Nat) :
    (∀ d, createPCRComposite mask pcrVals = .ok d →
      createPCRInfoLong loc mask pcrVals = .ok
        { Tag := tagPCRInfoLong
          LocAtCreation := (1 <<< loc) % 256
          LocAtRelease := (1 <<< loc) % 256
          PCRsAtCreation := ⟨3, mask⟩
          PCRsAtRelease := ⟨3, mask⟩
          DigestAtCreation := d
          DigestAtRelease := d }) ∧
    (∀ e, createPCRComposite mask pcrVals = .error e →
      createPCRInfoLong loc mask pcrVals = .error e) := by
  constructor
  · intro d hd
    have hlen : d.length = 20 := by
      unfold createPCRComposite at hd
      by_cases h : pcrVals.length % PCRSize ≠ 0
      · rw [if_pos h] at hd; cases hd
      · rw [if_neg h] at hd
        injection hd with hd
        rw [← hd]
        exact sha1_length _
    unfold createPCRInfoLong
    rw [hd]
    simp [copyToDigest_of_length d hlen]
  · intro e he
    unfold createPCRInfoLong
    rw [he]

/-- C7: every failure of mask construction, of the external value source, or
of the composite digest aborts `newPCRInfoLong` with the originating error;
no record is returned. -/
theorem newPCRInfoLong_error_prop (fetch : List Int → Except String (List Nat))
    (loc : Nat) (pcrNums : List Int) :
    (∀ e, setAllPCRs pcrMask.zero pcrNums = .error e →
      newPCRInfoLong fetch loc pcrNums = .error e) ∧
    (∀ m e, setAllPCRs pcrMask.zero pcrNums = .ok m →
      fetch pcrNums = .error e →
      newPCRInfoLong fetch loc pcrNums = .error e) ∧
    (∀ m vals e, setAllPCRs pcrMask.zero pcrNums = .ok m →
      fetch pcrNums = .ok vals →
      createPCRComposite m vals = .error e →
      newPCRInfoLong fetch loc pcrNums = .error e) := by
  refine ⟨fun e he => ?_, fun m e hm he => ?_, fun m vals e hm hv he => ?_⟩
  · unfold newPCRInfoLong
    simp [he]
  · unfold newPCRInfoLong
    simp [hm, he]
  · unfold newPCRInfoLong createPCRInfoLong
    simp [hm, hv, he]

/-- C9: `createPCRComposite` is deterministic — two calls with equal mask and
equal value bytes return byte-identical results; in this pure embedding it
has no effect on any state. -/
theorem createPCRComposite_deterministic (mask1 mask2 : pcrMask)
    (vals1 vals2 : List Nat) (hm : mask1 = mask2) (hv : vals1 = vals2) :
    createPCRComposite mask1 vals1 = createPCRComposite mask2 vals2 := by
  rw [hm, hv]

/-- C10: for every locality `loc ≥ 8` (with value-blob length a multiple of
20 so the digest step succeeds), `createPCRInfoLong` succeeds and the one-hot
encoding `byte(1 << loc)` truncates to 0, so both location fields are 0. -/
theorem createPCRInfoLong_locality_truncation (loc : Nat) (mask : pcrMask)
    (pcrVals : List Nat) (hloc : 8 ≤ loc) (hok : pcrVals.length % 20 = 0) :
    ∃ r, createPCRInfoLong loc mask pcrVals = .ok r ∧
      r.LocAtCreation = 0 ∧ r.LocAtRelease = 0 := by
  have hz : (1 <<< loc) % 256 = 0 := by
    rw [Nat.one_shiftLeft]
    apply Nat.mod_eq_zero_of_dvd
    have h256 : (256 : Nat) = 2 ^ 8 := by norm_num
    rw [h256]
    exact pow_dvd_pow 2 hloc
  have hcomp : createPCRComposite mask pcrVals =
      .ok (sha1 (packSelectionAndBytes ⟨3, mask⟩ pcrVals)) := by
    unfold createPCRComposite PCRSize
    rw [if_neg (by omega)]
  refine ⟨{ Tag := tagPCRInfoLong
            LocAtCreation := 0
            LocAtRelease := 0
            PCRsAtCreation := ⟨3, mask⟩
            PCRsAtRelease := ⟨3, mask⟩
            DigestAtCreation :=
              copyToDigest (sha1 (packSelectionAndBytes ⟨3, mask⟩ pcrVals))
            DigestAtRelease :=
              copyToDigest (sha1 (packSelectionAndBytes ⟨3, mask⟩ pcrVals)) },
        ?_, rfl, rfl⟩
  unfold createPCRInfoLong
  rw [hcomp]
  simp [hz]

/-- `setPCR` on an in-range index `n < 8` updates byte 0. -/
theorem setPCR_ok_lo (pm : pcrMask) (n : Nat) (h : n < 8) :
    pm.setPCR ↑n = .ok ⟨pm.b0 ||| 1 <<< (n % 8), pm.b1, pm.b2⟩ := by
  unfold pcrMask.setPCR
  rw [if_neg (by omega)]
  simp only [Int.toNat_ofNat]
  rw [if_pos (by omega)]

/-- `setPCR` on an in-range index `8 ≤ n < 16` updates byte 1. -/
theorem setPCR_ok_mid (pm : pcrMask) (n : Nat) (h8 : 8 ≤ n) (h16 : n < 16) :
    pm.setPCR ↑n = .ok ⟨pm.b0, pm.b1 ||| 1 <<< (n % 8), pm.b2⟩ := by
  unfold pcrMask.setPCR
  rw [if_neg (by omega)]
  simp only [Int.toNat_ofNat]
  rw [if_neg (by omega), if_pos (by omega)]

/-- `setPCR` on an in-range index `16 ≤ n < 24` updates byte 2. -/
theorem setPCR_ok_hi (pm : pcrMask) (n : Nat) (h16 : 16 ≤ n) (h24 : n < 24) :
    pm.setPCR ↑n = .ok ⟨pm.b0, pm.b1, pm.b2 ||| 1 <<< (n % 8)⟩ := by
  unfold pcrMask.setPCR
  rw [if_neg (by omega)]
  simp only [Int.toNat_ofNat]
  rw [if_neg (by omega), if_neg (by omega)]

/-- Byte 0 of a mask literal. -/
theorem byte_mk_zero (x y z : Nat) : (pcrMask.mk x y z).byte 0 = x := rfl

/-- Byte 1 of a mask literal. -/
theorem byte_mk_one (x y z : Nat) : (pcrMask.mk x y z).byte 1 = y := rfl

/-- Byte index outside `{0, 1}` selects the third byte. -/
theorem byte_mk_other (x y z k : Nat) (h0 : k ≠ 0) (h1 : k ≠ 1) :
    (pcrMask.mk x y z).byte k = z := by
  unfold pcrMask.byte
  rw [if_neg h0, if_neg h1]

/-- Byte 0 of a mask is its first field. -/
theorem byte_zero (pm : pcrMask) : pm.byte 0 = pm.b0 := rfl

/-- Byte 1 of a mask is its second field. -/
theorem byte_one (pm : pcrMask) : pm.byte 1 = pm.b1 := rfl

/-- Byte index outside `{0, 1}` of a mask is its third field. -/
theorem byte_other (pm : pcrMask) (k : Nat) (h0 : k ≠ 0) (h1 : k ≠ 1) :
    pm.byte k = pm.b2 := by
  unfold pcrMask.byte
  rw [if_neg h0, if_neg h1]

/-- Bit effect of updating byte 0 with the bit for index `n < 8`. -/
theorem bit_update_lo (pm : pcrMask) (n j : Nat) (hn : n < 8) :
    (pcrMask.mk (pm.b0 ||| 1 <<< (n % 8)) pm.b1 pm.b2).bit j =
      (pm.bit j || decide (j = n)) := by
  unfold pcrMask.bit
  by_cases hj : j < 8
  · have h0 : j / 8 = 0 := by omega
    rw [h0, byte_mk_zero, byte_zero, testBit_or_shiftLeft]
    have hnm : n % 8 = n := by omega
    have hjm : j % 8 = j := by omega
    rw [hnm, hjm]
  · have hjn : decide (j = n) = false := by simp; omega
    rw [hjn, Bool.or_false]
    by_cases h1 : j / 8 = 1
    · rw [h1, byte_mk_one, byte_one]
    · have h0 : j / 8 ≠ 0 := by omega
      rw [byte_mk_other _ _ _ _ h0 h1, byte_other _ _ h0 h1]

/-- Bit effect of updating byte 1 with the bit for index `8 ≤ n < 16`. -/
theorem bit_update_mid (pm : pcrMask) (n j : Nat) (h8 : 8 ≤ n) (h16 : n < 16) :
    (pcrMask.mk pm.b0 (pm.b1 ||| 1 <<< (n % 8)) pm.b2).bit j =
      (pm.bit j || decide (j = n)) := by
  unfold pcrMask.bit
  by_cases hj : j / 8 = 1
  · rw [hj, byte_mk_one, byte_one, testBit_or_shiftLeft]
    have heq : (j % 8 = n % 8) ↔ (j = n) := by omega
    rw [decide_eq_decide.mpr heq]
  · have hjn : decide (j = n) = false := by simp; omega
    rw [hjn, Bool.or_false]
    by_cases h0 : j / 8 = 0
    · rw [h0, byte_mk_zero, byte_zero]
    · rw [byte_mk_other _ _ _ _ h0 hj, byte_other _ _ h0 hj]

/-- Bit effect of updating byte 2 with the bit for index `16 ≤ n < 24`. -/
theorem bit_update_hi (pm : pcrMask) (n j : Nat) (h16 : 16 ≤ n) (h24 : n < 24)
    (hj24 : j < 24) :
    (pcrMask.mk pm.b0 pm.b1 (pm.b2 ||| 1 <<< (n % 8))).bit j =
      (pm.bit j || decide (j = n)) := by
  unfold pcrMask.bit
  by_cases hj : 16 ≤ j
  · have h0 : j / 8 ≠ 0 := by omega
    have h1 : j / 8 ≠ 1 := by omega
    rw [byte_mk_other _ _ _ _ h0 h1, byte_other _ _ h0 h1, testBit_or_shiftLeft]
    have heq : (j % 8 = n % 8) ↔ (j = n) := by omega
    rw [decide_eq_decide.mpr heq]
  · have hjn : decide (j = n) = false := by simp; omega
    rw [hjn, Bool.or_false]
    by_cases h0 : j / 8 = 0
    · rw [h0, byte_mk_zero, byte_zero]
    · have h1 : j / 8 = 1 := by omega
      rw [h1, byte_mk_one, byte_one]

/-- The byte-truncated bit pattern used in `isPCRSet` in terms of `testBit`. -/
theorem decide_and_shift (b k : Nat) (hk : k < 8) :
    decide (b &&& (1 <<< k) % 256 = (1 <<< k) % 256) = b.testBit k := by
  have h1 : (1 <<< k) % 256 = 2 ^ k := by
    rw [Nat.one_shiftLeft]
    apply Nat.mod_eq_of_lt
    calc 2 ^ k ≤ 2 ^ 7 := Nat.pow_le_pow_right (by norm_num) (by omega)
      _ < 256 := by norm_num
  simp only [h1]
  exact decide_and_two_pow b k

/-- For in-range `n`, `isPCRSet` returns exactly bit `n` of the mask. -/
theorem isPCRSet_eq_bit (pm : pcrMask) (n : Nat) (hn : n < 24) :
    pm.isPCRSet ↑n = .ok (pm.bit n) := by
  unfold pcrMask.isPCRSet pcrMask.bit
  rw [if_neg (by omega)]
  simp only [Int.toNat_ofNat]
  exact congrArg Except.ok
    (decide_and_shift (pm.byte (n / 8)) (n % 8) (Nat.mod_lt _ (by norm_num)))

/-- C3: for every index `i` in `[0, 24)`, `setPCR` succeeds and sets exactly
bit `i % 8` (LSB-first) of byte `i / 8`, leaving every other bit of the mask
unchanged, and `isPCRSet` reads that same bit; for `i` outside `[0, 24)` both
fail with the invalid-index error and no updated mask is produced. -/
theorem setPCR_isPCRSet_spec :
    (∀ (pm : pcrMask) (i : Int), 0 ≤ i → i < 24 →
      ∃ pm2, pm.setPCR i = .ok pm2 ∧
        (∀ j : Nat, j < 24 → pm2.bit j = (pm.bit j || decide (j = i.toNat))) ∧
        (∀ pm0 : pcrMask, pm0.isPCRSet i = .ok (pm0.bit i.toNat))) ∧
    (∀ (pm : pcrMask) (i : Int), i < 0 ∨ 24 ≤ i →
      pm.setPCR i = .error ("can't set PCR " ++ toString i) ∧
      pm.isPCRSet i = .error ("can't check PCR " ++ toString i)) := by
  constructor
  · intro pm i h0 h24
    obtain ⟨n, rfl⟩ : ∃ n : Nat, i = (n : Int) :=
      ⟨i.toNat, (Int.toNat_of_nonneg h0).symm⟩
    have hn : n < 24 := by omega
    have hisn : ∀ pm0 : pcrMask, pm0.isPCRSet ↑n = .ok (pm0.bit ((n : Int).toNat)) := by
      intro pm0
      rw [Int.toNat_ofNat]
      exact isPCRSet_eq_bit pm0 n hn
    rcases Nat.lt_or_ge n 8 with h | h
    · exact ⟨_, setPCR_ok_lo pm n h, fun j _ => by
        rw [Int.toNat_ofNat]; exact bit_update_lo pm n j h, hisn⟩
    · rcases Nat.lt_or_ge n 16 with h16 | h16
      · exact ⟨_, setPCR_ok_mid pm n h h16, fun j _ => by
          rw [Int.toNat_ofNat]; exact bit_update_mid pm n j h h16, hisn⟩
      · exact ⟨_, setPCR_ok_hi pm n h16 hn, fun j hj => by
          rw [Int.toNat_ofNat]; exact bit_update_hi pm n j h16 hn hj, hisn⟩
  · intro pm i hout
    constructor
    · unfold pcrMask.setPCR
      rw [if_pos (by omega)]
    · unfold pcrMask.isPCRSet
      rw [if_pos (by omega)]

/-- A valid index always makes `setPCR` succeed. -/
theorem setPCR_ok_of_valid (pm : pcrMask) (v : Int) (h0 : 0 ≤ v)
    (h24 : v < 24) : ∃ pm2, pm.setPCR v = .ok pm2 := by
  obtain ⟨n, rfl⟩ : ∃ n : Nat, v = (n : Int) :=
    ⟨v.toNat, (Int.toNat_of_nonneg h0).symm⟩
  have hn : n < 24 := by omega
  rcases Nat.lt_or_ge n 8 with h | h
  · exact ⟨_, setPCR_ok_lo pm n h⟩
  rcases Nat.lt_or_ge n 16 with h16 | h16
  · exact ⟨_, setPCR_ok_mid pm n h h16⟩
  · exact ⟨_, setPCR_ok_hi pm n h16 hn⟩

/-- An out-of-range index always makes `setPCR` fail with its error. -/
theorem setPCR_error_of_invalid (pm : pcrMask) (v : Int)
    (h : v < 0 ∨ 24 ≤ v) :
    pm.setPCR v = .error ("can't set PCR " ++ toString v) := by
  unfold pcrMask.setPCR
  rw [if_pos (by omega)]

/-- Setting a list of all-valid indices always succeeds. -/
theorem setAllPCRs_ok (vs : List Int) :
    ∀ pm, (∀ v ∈ vs, 0 ≤ v ∧ v < 24) → ∃ m, setAllPCRs pm vs = .ok m := by
  induction vs with
  | nil => exact fun pm _ => ⟨pm, rfl⟩
  | cons v rest ih =>
    intro pm hv
    obtain ⟨pm2, hpm2⟩ :=
      setPCR_ok_of_valid pm v (hv v (by simp)).1 (hv v (by simp)).2
    obtain ⟨m, hm⟩ := ih pm2 (fun u hu => hv u (by simp [hu]))
    refine ⟨m, ?_⟩
    simp only [setAllPCRs, hpm2]
    exact hm

/-- Setting stops at the first out-of-range index with its error. -/
theorem setAllPCRs_error_first (vs1 : List Int) (v : Int) (vs2 : List Int) :
    ∀ pm, (∀ u ∈ vs1, 0 ≤ u ∧ u < 24) → (v < 0 ∨ 24 ≤ v) →
      setAllPCRs pm (vs1 ++ v :: vs2) =
        .error ("can't set PCR " ++ toString v) := by
  induction vs1 with
  | nil =>
    intro pm _ hv
    simp only [List.nil_append, setAllPCRs, setPCR_error_of_invalid pm v hv]
  | cons u rest ih =>
    intro pm hu hv
    obtain ⟨pm2, hpm2⟩ :=
      setPCR_ok_of_valid pm u (hu u (by simp)).1 (hu u (by simp)).2
    simp only [List.cons_append, setAllPCRs, hpm2]
    exact ih pm2 (fun w hw => hu w (by simp [hw])) hv

/-- C4: `newPCRSelection` fails with the invalid-index error at the first
out-of-range index — earlier valid indices of the same call are discarded and
no selection is returned — and succeeds with `Size = 3` on all-valid index
sequences. -/
theorem newPCRSelection_spec :
    (∀ (vs1 vs2 : List Int) (v : Int), (∀ u ∈ vs1, 0 ≤ u ∧ u < 24) →
      (v < 0 ∨ 24 ≤ v) →
      newPCRSelection (vs1 ++ v :: vs2) =
        .error ("can't set PCR " ++ toString v)) ∧
    (∀ vs : List Int, (∀ v ∈ vs, 0 ≤ v ∧ v < 24) →
      ∃ sel, newPCRSelection vs = .ok sel ∧ sel.Size = 3) := by
  constructor
  · intro vs1 vs2 v h1 hv
    unfold newPCRSelection
    rw [setAllPCRs_error_first vs1 v vs2 pcrMask.zero h1 hv]
  · intro vs hvs
    obtain ⟨m, hm⟩ := setAllPCRs_ok vs pcrMask.zero hvs
    refine ⟨⟨3, m⟩, ?_, rfl⟩
    unfold newPCRSelection
    rw [hm]

/-- `List.any` depends only on membership. -/
theorem any_congr_mem {α : Type} (f : α → Bool) (vs ws : List α)
    (h : ∀ v, v ∈ vs ↔ v ∈ ws) : vs.any f = ws.any f := by
  rcases hw : ws.any f
  · rw [List.any_eq_false] at hw
    rw [List.any_eq_false]
    exact fun x hx => hw x ((h x).1 hx)
  · rw [List.any_eq_true] at hw ⊢
    obtain ⟨x, hx, hfx⟩ := hw
    exact ⟨x, (h x).2 hx, hfx⟩

/-- Characterization of the mask bits produced by `setAllPCRs` on all-valid
indices: each byte's bits are the original bits plus the bits of the listed
indices that land in that byte. -/
theorem setAllPCRs_testBit (vs : List Int) :
    ∀ pm m, (∀ v ∈ vs, 0 ≤ v ∧ v < 24) → setAllPCRs pm vs = .ok m →
      ∀ p,
        (m.b0.testBit p = (pm.b0.testBit p ||
          vs.any fun v => decide (v.toNat < 8 ∧ v.toNat % 8 = p))) ∧
        (m.b1.testBit p = (pm.b1.testBit p ||
          vs.any fun v => decide (8 ≤ v.toNat ∧ v.toNat < 16 ∧ v.toNat % 8 = p))) ∧
        (m.b2.testBit p = (pm.b2.testBit p ||
          vs.any fun v => decide (16 ≤ v.toNat ∧ v.toNat < 24 ∧ v.toNat % 8 = p))) := by
  induction vs with
  | nil =>
    intro pm m _ hm p
    have : m = pm := by
      simpa [setAllPCRs] using hm.symm
    subst this
    simp
  | cons v rest ih =>
    intro pm m hv hm p
    have h0 : 0 ≤ v := (hv v (by simp)).1
    have h24 : v < 24 := (hv v (by simp)).2
    obtain ⟨n, rfl⟩ : ∃ n : Nat, v = (n : Int) :=
      ⟨v.toNat, (Int.toNat_of_nonneg h0).symm⟩
    have hn : n < 24 := by omega
    have hrest : ∀ u ∈ rest, 0 ≤ u ∧ u < 24 :=
      fun u hu => hv u (by simp [hu])
    rcases Nat.lt_or_ge n 8 with h | h
    · rw [show setAllPCRs pm (↑n :: rest) =
          setAllPCRs ⟨pm.b0 ||| 1 <<< (n % 8), pm.b1, pm.b2⟩ rest by
        simp only [setAllPCRs, setPCR_ok_lo pm n h]] at hm
      obtain ⟨c0, c1, c2⟩ := ih _ m hrest hm p
      refine ⟨?_, ?_, ?_⟩
      · rw [c0]
        simp only [testBit_or_shiftLeft, List.any_cons, Int.toNat_ofNat,
          Bool.or_assoc]
        have : decide (p = n % 8) = decide (n < 8 ∧ n % 8 = p) := by
          rw [decide_eq_decide]
          omega
        rw [this]
      · rw [c1]
        simp only [List.any_cons, Int.toNat_ofNat]
        have : decide (8 ≤ n ∧ n < 16 ∧ n % 8 = p) = false := by
          simp; omega
        rw [this, Bool.false_or]
      · rw [c2]
        simp only [List.any_cons, Int.toNat_ofNat]
        have : decide (16 ≤ n ∧ n < 24 ∧ n % 8 = p) = false := by
          simp; omega
        rw [this, Bool.false_or]
    · rcases Nat.lt_or_ge n 16 with h16 | h16
      · rw [show setAllPCRs pm (↑n :: rest) =
            setAllPCRs ⟨pm.b0, pm.b1 ||| 1 <<< (n % 8), pm.b2⟩ rest by
          simp only [setAllPCRs, setPCR_ok_mid pm n h h16]] at hm
        obtain ⟨c0, c1, c2⟩ := ih _ m hrest hm p
        refine ⟨?_, ?_, ?_⟩
        · rw [c0]
          simp only [List.any_cons, Int.toNat_ofNat]
          have : decide (n < 8 ∧ n % 8 = p) = false := by
            simp; omega
          rw [this, Bool.false_or]
        · rw [c1]
          simp only [testBit_or_shiftLeft, List.any_cons, Int.toNat_ofNat,
            Bool.or_assoc]
          have : decide (p = n % 8) = decide (8 ≤ n ∧ n < 16 ∧ n % 8 = p) := by
            rw [decide_eq_decide]
            omega
          rw [this]
        · rw [c2]
          simp only [List.any_cons, Int.toNat_ofNat]
          have : decide (16 ≤ n ∧ n < 24 ∧ n % 8 = p) = false := by
            simp; omega
          rw [this, Bool.false_or]
      · rw [show setAllPCRs pm (↑n :: rest) =
            setAllPCRs ⟨pm.b0, pm.b1, pm.b2 ||| 1 <<< (n % 8)⟩ rest by
          simp only [setAllPCRs, setPCR_ok_hi pm n h16 hn]] at hm
        obtain ⟨c0, c1, c2⟩ := ih _ m hrest hm p
        refine ⟨?_, ?_, ?_⟩
        · rw [c0]
          simp only [List.any_cons, Int.toNat_ofNat]
          have : decide (n < 8 ∧ n % 8 = p) = false := by
            simp; omega
          rw [this, Bool.false_or]
        · rw [c1]
          simp only [List.any_cons, Int.toNat_ofNat]
          have : decide (8 ≤ n ∧ n < 16 ∧ n % 8 = p) = false := by
            simp; omega
          rw [this, Bool.false_or]
        · rw [c2]
          simp only [testBit_or_shiftLeft, List.any_cons, Int.toNat_ofNat,
            Bool.or_assoc]
          have : decide (p = n % 8) = decide (16 ≤ n ∧ n < 24 ∧ n % 8 = p) := by
            rw [decide_eq_decide]
            omega
          rw [this]

/-- On all-valid index lists with the same membership, `newPCRSelection`
returns identical results. -/
theorem newPCRSelection_congr_mem (vs ws : List Int)
    (hvs : ∀ v ∈ vs, 0 ≤ v ∧ v < 24) (hmem : ∀ v, v ∈ vs ↔ v ∈ ws) :
    newPCRSelection vs = newPCRSelection ws := by
  have hws : ∀ v ∈ ws, 0 ≤ v ∧ v < 24 := fun v hv => hvs v ((hmem v).2 hv)
  obtain ⟨m, hm⟩ := setAllPCRs_ok vs pcrMask.zero hvs
  obtain ⟨m2, hm2⟩ := setAllPCRs_ok ws pcrMask.zero hws
  have cv := setAllPCRs_testBit vs pcrMask.zero m hvs hm
  have cw := setAllPCRs_testBit ws pcrMask.zero m2 hws hm2
  have e0 : m.b0 = m2.b0 := Nat.eq_of_testBit_eq fun p => by
    rw [(cv p).1, (cw p).1, any_congr_mem _ vs ws hmem]
  have e1 : m.b1 = m2.b1 := Nat.eq_of_testBit_eq fun p => by
    rw [(cv p).2.1, (cw p).2.1, any_congr_mem _ vs ws hmem]
  have e2 : m.b2 = m2.b2 := Nat.eq_of_testBit_eq fun p => by
    rw [(cv p).2.2, (cw p).2.2, any_congr_mem _ vs ws hmem]
  have hmm : m = m2 := by
    cases m
    cases m2
    simp only [pcrMask.mk.injEq]
    exact ⟨e0, e1, e2⟩
  unfold newPCRSelection
  rw [hm, hm2, hmm]

/-- C8: the mask produced by a successful `newPCRSelection` depends only on
the set of indices supplied — not on their order or multiplicity — with the
concrete instances `[23, 0, 17]` versus `[0, 17, 23]` and a repeated index
versus a single occurrence. -/
theorem newPCRSelection_set_dependence :
    (∀ vs ws : List Int, (∀ v ∈ vs, 0 ≤ v ∧ v < 24) →
      (∀ v, v ∈ vs ↔ v ∈ ws) → newPCRSelection vs = newPCRSelection ws) ∧
    newPCRSelection [23, 0, 17] = newPCRSelection [0, 17, 23] ∧
    newPCRSelection [5, 5] = newPCRSelection [5] := by
  refine ⟨newPCRSelection_congr_mem, by rfl, by rfl⟩

/-- C1 counterexample: the mask selecting exactly PCR indices `{0, 17, 23}`
has bytes `{0x01, 0x00, 0x82}` — index 17 lands in byte `17 / 8 = 2`, bit
`17 % 8 = 1` — not the claimed `{0x01, 0x02, 0x80}`, and the composite buffer
therefore differs from the claimed one at bytes 3 and 4. -/
theorem known_vector_counterexample :
    newPCRSelection [0, 17, 23] = .ok ⟨3, ⟨1, 0, 130⟩⟩ ∧
    pcrMask.mk 1 0 130 ≠ pcrMask.mk 1 2 128 ∧
    packSelectionAndBytes ⟨3, ⟨1, 0, 130⟩⟩ (List.replicate 60 0) ≠
      [0, 3, 1, 2, 128, 0, 0, 0, 60] ++ List.replicate 60 0 :=
  ⟨by rfl, by decide, by decide⟩

/-- C1 (amended): the mask selecting exactly PCR indices `{0, 17, 23}` has
bytes `{0x01, 0x00, 0x82}`, and the composite over that mask with 60 zero
value bytes hashes a buffer of exactly 69 bytes whose first 9 bytes are
`00 03 01 00 82 00 00 00 3C` followed by 60 zero bytes, its SHA-1 being the
returned digest. -/
theorem composite_known_vector :
    newPCRSelection [0, 17, 23] = .ok ⟨3, ⟨1, 0, 130⟩⟩ ∧
    (packSelectionAndBytes ⟨3, ⟨1, 0, 130⟩⟩ (List.replicate 60 0)).length = 69 ∧
    packSelectionAndBytes ⟨3, ⟨1, 0, 130⟩⟩ (List.replicate 60 0) =
      [0, 3, 1, 0, 130, 0, 0, 0, 60] ++ List.replicate 60 0 ∧
    createPCRComposite ⟨1, 0, 130⟩ (List.replicate 60 0) =
      .ok (sha1 ([0, 3, 1, 0, 130, 0, 0, 0, 60] ++ List.replicate 60 0)) :=
  ⟨by rfl, by decide, by decide, by rfl⟩

/-! ## Witnesses -/

/-- Witness for C2 at mask `{1, 0, 130}` and 20 zero value bytes. -/
theorem createPCRComposite_ok_spec_witness :
    createPCRComposite ⟨1, 0, 130⟩ (List.replicate 20 0) =
      .ok (sha1 (u16be 3 ++ [1, 0, 130] ++
        u32be (List.replicate (20 : Nat) (0 : Nat)).length ++
        List.replicate 20 0)) ∧
    (sha1 (u16be 3 ++ [1, 0, 130] ++
        u32be (List.replicate (20 : Nat) (0 : Nat)).length ++
        List.replicate 20 0)).length = 20 :=
  ⟨(createPCRComposite_ok_spec ⟨1, 0, 130⟩ (List.replicate 20 0) (by decide)).1,
   (createPCRComposite_ok_spec ⟨1, 0, 130⟩ (List.replicate 20 0) (by decide)).2 _
     (createPCRComposite_ok_spec ⟨1, 0, 130⟩ (List.replicate 20 0) (by decide)).1⟩

/-- Witness for C3 at the in-range index 9 and the out-of-range index 42. -/
theorem setPCR_isPCRSet_spec_witness :
    (∃ pm2, pcrMask.zero.setPCR 9 = .ok pm2 ∧
      (∀ j : Nat, j < 24 →
        pm2.bit j = (pcrMask.zero.bit j || decide (j = (9 : Int).toNat))) ∧
      (∀ pm0 : pcrMask, pm0.isPCRSet 9 = .ok (pm0.bit (9 : Int).toNat))) ∧
    (pcrMask.zero.setPCR 42 = .error ("can't set PCR " ++ toString (42 : Int)) ∧
     pcrMask.zero.isPCRSet 42 =
       .error ("can't check PCR " ++ toString (42 : Int))) :=
  ⟨setPCR_isPCRSet_spec.1 pcrMask.zero 9 (by decide) (by decide),
   setPCR_isPCRSet_spec.2 pcrMask.zero 42 (by decide)⟩

/-- Witness for C4: one call with an out-of-range index after valid ones, and
one all-valid call. -/
theorem newPCRSelection_spec_witness :
    newPCRSelection ([0, 17] ++ 24 :: [5]) =
      .error ("can't set PCR " ++ toString (24 : Int)) ∧
    ∃ sel, newPCRSelection [0, 17, 23] = .ok sel ∧ sel.Size = 3 :=
  ⟨newPCRSelection_spec.1 [0, 17] [5] 24 (by decide) (by decide),
   newPCRSelection_spec.2 [0, 17, 23] (by decide)⟩

/-- Witness for C5 at a 19-byte value blob. -/
theorem createPCRComposite_error_iff_witness :
    ((∃ e, createPCRComposite ⟨1, 0, 130⟩ (List.replicate 19 0) = .error e) ↔
      (List.replicate (19 : Nat) (0 : Nat)).length % 20 ≠ 0) ∧
    ((List.replicate (19 : Nat) (0 : Nat)).length % 20 ≠ 0 →
      createPCRComposite ⟨1, 0, 130⟩ (List.replicate 19 0) =
        .error ("pcrs must be a multiple of 20")) :=
  createPCRComposite_error_iff ⟨1, 0, 130⟩ (List.replicate 19 0)

/-- Witness for C6: success case with 20 zero value bytes and failure case
with 19 value bytes. -/
theorem createPCRInfoLong_spec_witness :
    createPCRInfoLong 0 ⟨1, 0, 130⟩ (List.replicate 20 0) = .ok
      { Tag := tagPCRInfoLong
        LocAtCreation := (1 <<< 0) % 256
        LocAtRelease := (1 <<< 0) % 256
        PCRsAtCreation := ⟨3, ⟨1, 0, 130⟩⟩
        PCRsAtRelease := ⟨3, ⟨1, 0, 130⟩⟩
        DigestAtCreation :=
          sha1 (packSelectionAndBytes ⟨3, ⟨1, 0, 130⟩⟩ (List.replicate 20 0))
        DigestAtRelease :=
          sha1 (packSelectionAndBytes ⟨3, ⟨1, 0, 130⟩⟩ (List.replicate 20 0)) } ∧
    createPCRInfoLong 0 ⟨1, 0, 130⟩ (List.replicate 19 0) =
      .error ("pcrs must be a multiple of 20") :=
  ⟨(createPCRInfoLong_spec 0 ⟨1, 0, 130⟩ (List.replicate 20 0)).1 _ (by rfl),
   (createPCRInfoLong_spec 0 ⟨1, 0, 130⟩ (List.replicate 19 0)).2 _ (by rfl)⟩

/-- Witness for C7: an invalid index, a failing value source, and a source
returning a malformed blob. -/
theorem newPCRInfoLong_error_prop_witness :
    newPCRInfoLong (fun _ => .error "device unreachable") 0 [0, 25] =
      .error ("can't set PCR " ++ toString (25 : Int)) ∧
    newPCRInfoLong (fun _ => .error "device unreachable") 0 [0] =
      .error "device unreachable" ∧
    newPCRInfoLong (fun _ => .ok (List.replicate 19 0)) 0 [0] =
      .error ("pcrs must be a multiple of 20") :=
  ⟨(newPCRInfoLong_error_prop (fun _ => .error "device unreachable") 0
      [0, 25]).1 _ (by rfl),
   (newPCRInfoLong_error_prop (fun _ => .error "device unreachable") 0
      [0]).2.1 ⟨1, 0, 0⟩ _ (by rfl) rfl,
   (newPCRInfoLong_error_prop (fun _ => .ok (List.replicate 19 0)) 0
      [0]).2.2 ⟨1, 0, 0⟩ (List.replicate 19 0) _ (by rfl) rfl (by rfl)⟩

/-- Witness for C8 at the index lists `[1, 2]` and `[2, 1]`. -/
theorem newPCRSelection_set_dependence_witness :
    newPCRSelection [1, 2] = newPCRSelection [2, 1] :=
  newPCRSelection_set_dependence.1 [1, 2] [2, 1] (by decide)
    (fun v => by constructor <;> (intro h; simp at h ⊢; tauto))

/-- Witness for C9 at equal concrete arguments. -/
theorem createPCRComposite_deterministic_witness :
    createPCRComposite ⟨1, 0, 130⟩ (List.replicate 20 0) =
      createPCRComposite ⟨1, 0, 130⟩ (List.replicate 20 0) :=
  createPCRComposite_deterministic ⟨1, 0, 130⟩ ⟨1, 0, 130⟩
    (List.replicate 20 0) (List.replicate 20 0) rfl rfl

/-- Witness for C10 at locality 9. -/
theorem createPCRInfoLong_locality_truncation_witness :
    ∃ r, createPCRInfoLong 9 ⟨1, 0, 130⟩ (List.replicate 20 0) = .ok r ∧
      r.LocAtCreation = 0 ∧ r.LocAtRelease = 0 :=
  createPCRInfoLong_locality_truncation 9 ⟨1, 0, 130⟩ (List.replicate 20 0)
    (by decide) (by decide)

end GoTpm
